import Mathlib

/-!
Verification of the CarbonChain core: the AMM swap pricing engine
(`MarketDataService.calculateSwapOutput`) and the balance/transaction ledger
mutated by the contract-interface classes (`tCO2TokenContract`,
`MarketplaceContract`, `StakingContract`).

The JavaScript source mutates a single in-memory `AppState` object and throws
`Error` on failed checks.  We embed each contract method as a pure function
`AppState → args → Except Err Unit × AppState`: the first component is the
outcome (`Except.error` models a thrown exception propagating to the caller),
the second is the state of the shared `AppState` object after the call — this
captures the in-place mutation semantics, where mutations performed before a
throw are NOT rolled back.  JavaScript numbers are embedded as rationals `ℚ`
(exact arithmetic); non-deterministic record fields (random ids, tx hashes,
timestamps) are omitted from the embedded `Tx` record, which keeps the kind
and the deterministic numeric payload.
-/

namespace CarbonChain

/-- Error kinds thrown by the contract methods (spec §7 names; each constructor
corresponds to one `throw new Error(...)` site, plus `StorageUnavailable` for a
rejected content-store upload). -/
inductive Err where
  | NotConnected
  | InsufficientBalance
  | NothingToClaim
  | StorageUnavailable
  deriving DecidableEq, Repr

/-- Transaction kinds appearing in `txManager.addTransaction({type: ...})`. -/
inductive TxKind where
  | mint
  | retire
  | transfer
  | buy
  | sell
  | stake
  | unstake
  | claimRewards
  | vote
  deriving DecidableEq, Repr

/-- A transaction record: the `type` and the deterministic numeric payload.
Random id / hash / timestamp fields of the source records are non-deterministic
and omitted. -/
structure Tx where
  kind : TxKind
  amount : ℚ
  inputAmount : ℚ
  outputAmount : ℚ
  deriving DecidableEq, Repr

/-- Record carrying a single `amount` field (mint/retire/stake/unstake/claim). -/
def Tx.simple (k : TxKind) (a : ℚ) : Tx := ⟨k, a, 0, 0⟩

/-- Record carrying `inputAmount`/`outputAmount` fields (buy/sell). -/
def Tx.swapRec (k : TxKind) (i o : ℚ) : Tx := ⟨k, 0, i, o⟩

/-- `AppState.wallet` balance fields. -/
structure Wallet where
  tCO2Balance : ℚ
  stakedBalance : ℚ
  rewards : ℚ
  deriving DecidableEq, Repr

/-- `AppState.stats` counters. -/
structure Stats where
  totalMinted : ℚ
  totalRetired : ℚ
  totalStaked : ℚ
  deriving DecidableEq, Repr

/-- Proof-of-retirement certificate (random certificate id and wallet address
omitted; `ipfsHash` is the content address returned by the store). -/
structure Certificate where
  amount : ℚ
  reason : String
  ipfsHash : Option String
  deriving DecidableEq, Repr

/-- The mutable application state shared by all contract classes:
`wallet.connected` flag, the wallet balances, stats counters, the newest-first
transaction history, and the newest-first retirement certificate list. -/
structure AppState where
  connected : Bool
  wallet : Wallet
  stats : Stats
  transactions : List Tx
  retirements : List Certificate
  deriving DecidableEq, Repr

namespace MarketDataService

/-- `MarketDataService.calculateSwapOutput`: constant-product AMM output with
the fee levied on the input.  The source performs no input validation. -/
def calculateSwapOutput (inputAmount inputReserve outputReserve fee : ℚ) : ℚ :=
  let inputAmountWithFee := inputAmount * (1 - fee)
  let numerator := inputAmountWithFee * outputReserve
  let denominator := inputReserve + inputAmountWithFee
  numerator / denominator

/-- The default fee `0.003` of `calculateSwapOutput`. -/
def defaultFee : ℚ := 3 / 1000

/-- `getPoolReserves().tCO2`. -/
def poolReserves_tCO2 : ℚ := 1000000

/-- `getPoolReserves().USDT`. -/
def poolReserves_USDT : ℚ := 15500000

end MarketDataService

namespace TransactionManager

/-- `TransactionManager.addTransaction`: `unshift` prepends, newest first. -/
def addTransaction (txs : List Tx) (t : Tx) : List Tx := t :: txs

end TransactionManager

namespace tCO2TokenContract

/-- `tCO2TokenContract.mint`: requires a connected wallet, credits the tCO2
balance, bumps `totalMinted`, appends a `mint` record. -/
def mint (s : AppState) (amount : ℚ) : Except Err Unit × AppState :=
  if !s.connected then (Except.error Err.NotConnected, s)
  else
    let s1 : AppState := { s with
      wallet := { s.wallet with tCO2Balance := s.wallet.tCO2Balance + amount },
      stats := { s.stats with totalMinted := s.stats.totalMinted + amount } }
    let s2 : AppState := { s1 with
      transactions := TransactionManager.addTransaction s1.transactions (Tx.simple TxKind.mint amount) }
    (Except.ok (), s2)

/-- `tCO2TokenContract.burn` (retirement): checks wallet connection and
balance, debits the tCO2 balance and bumps `totalRetired`, THEN uploads the
certificate to the content store.  `uploadResult = some cid` models a
successful `ipfsService.upload`; `none` models a rejected upload
(`StorageUnavailable`), whose exception propagates after the debit has already
been applied (the source's `catch` only logs and rethrows). -/
def burn (s : AppState) (amount : ℚ) (reason : String) (uploadResult : Option String) :
    Except Err Unit × AppState :=
  if !s.connected then (Except.error Err.NotConnected, s)
  else if s.wallet.tCO2Balance < amount then (Except.error Err.InsufficientBalance, s)
  else
    let s1 : AppState := { s with
      wallet := { s.wallet with tCO2Balance := s.wallet.tCO2Balance - amount },
      stats := { s.stats with totalRetired := s.stats.totalRetired + amount } }
    match uploadResult with
    | none => (Except.error Err.StorageUnavailable, s1)
    | some cid =>
      let cert : Certificate := ⟨amount, reason, some cid⟩
      let s2 : AppState := { s1 with retirements := cert :: s1.retirements }
      let s3 : AppState := { s2 with
        transactions := TransactionManager.addTransaction s2.transactions (Tx.simple TxKind.retire amount) }
      (Except.ok (), s3)

end tCO2TokenContract

namespace MarketplaceContract

/-- `MarketplaceContract.swapUSDTForTCO2` (buy): only checks wallet connection;
computes the AMM output from the static pool reserves, computes (but never
uses) the slippage bound `minOutput`, credits the tCO2 balance with the
output, appends a `buy` record. -/
def swapUSDTForTCO2 (s : AppState) (usdtAmount slippage : ℚ) : Except Err Unit × AppState :=
  if !s.connected then (Except.error Err.NotConnected, s)
  else
    let tCO2Output := MarketDataService.calculateSwapOutput usdtAmount
      MarketDataService.poolReserves_USDT MarketDataService.poolReserves_tCO2
      MarketDataService.defaultFee
    let _minOutput := tCO2Output * (1 - slippage / 100)
    let s1 : AppState := { s with
      wallet := { s.wallet with tCO2Balance := s.wallet.tCO2Balance + tCO2Output } }
    let s2 : AppState := { s1 with
      transactions := TransactionManager.addTransaction s1.transactions
        (Tx.swapRec TxKind.buy usdtAmount tCO2Output) }
    (Except.ok (), s2)

/-- `MarketplaceContract.swapTCO2ForUSDT` (sell): checks wallet connection and
tCO2 balance; computes the AMM output, computes (but never uses) the slippage
bound, debits the tCO2 balance by the input amount, appends a `sell` record. -/
def swapTCO2ForUSDT (s : AppState) (tCO2Amount slippage : ℚ) : Except Err Unit × AppState :=
  if !s.connected then (Except.error Err.NotConnected, s)
  else if s.wallet.tCO2Balance < tCO2Amount then (Except.error Err.InsufficientBalance, s)
  else
    let usdtOutput := MarketDataService.calculateSwapOutput tCO2Amount
      MarketDataService.poolReserves_tCO2 MarketDataService.poolReserves_USDT
      MarketDataService.defaultFee
    let _minOutput := usdtOutput * (1 - slippage / 100)
    let s1 : AppState := { s with
      wallet := { s.wallet with tCO2Balance := s.wallet.tCO2Balance - tCO2Amount } }
    let s2 : AppState := { s1 with
      transactions := TransactionManager.addTransaction s1.transactions
        (Tx.swapRec TxKind.sell tCO2Amount usdtOutput) }
    (Except.ok (), s2)

end MarketplaceContract

namespace StakingContract

/-- `StakingContract.stake`: checks wallet connection and that
`tCO2Balance < amount` does not hold; moves `amount` from liquid to staked,
bumps `totalStaked`, appends a `stake` record.  Note there is no positivity
check on `amount`. -/
def stake (s : AppState) (amount : ℚ) : Except Err Unit × AppState :=
  if !s.connected then (Except.error Err.NotConnected, s)
  else if s.wallet.tCO2Balance < amount then (Except.error Err.InsufficientBalance, s)
  else
    let s1 : AppState := { s with
      wallet := { s.wallet with
        tCO2Balance := s.wallet.tCO2Balance - amount,
        stakedBalance := s.wallet.stakedBalance + amount },
      stats := { s.stats with totalStaked := s.stats.totalStaked + amount } }
    let s2 : AppState := { s1 with
      transactions := TransactionManager.addTransaction s1.transactions (Tx.simple TxKind.stake amount) }
    (Except.ok (), s2)

/-- `StakingContract.unstake`: checks wallet connection and that
`stakedBalance < amount` does not hold; moves `amount` from staked to liquid,
decrements `totalStaked`, appends an `unstake` record.  No positivity check. -/
def unstake (s : AppState) (amount : ℚ) : Except Err Unit × AppState :=
  if !s.connected then (Except.error Err.NotConnected, s)
  else if s.wallet.stakedBalance < amount then (Except.error Err.InsufficientBalance, s)
  else
    let s1 : AppState := { s with
      wallet := { s.wallet with
        tCO2Balance := s.wallet.tCO2Balance + amount,
        stakedBalance := s.wallet.stakedBalance - amount },
      stats := { s.stats with totalStaked := s.stats.totalStaked - amount } }
    let s2 : AppState := { s1 with
      transactions := TransactionManager.addTransaction s1.transactions (Tx.simple TxKind.unstake amount) }
    (Except.ok (), s2)

/-- `StakingContract.claimRewards`: checks wallet connection and
`rewards <= 0`; credits the tCO2 balance with the full pending rewards, zeroes
`rewards`, appends a `claim_rewards` record. -/
def claimRewards (s : AppState) : Except Err Unit × AppState :=
  if !s.connected then (Except.error Err.NotConnected, s)
  else
    let rewards := s.wallet.rewards
    if rewards ≤ 0 then (Except.error Err.NothingToClaim, s)
    else
      let s1 : AppState := { s with
        wallet := { s.wallet with
          tCO2Balance := s.wallet.tCO2Balance + rewards,
          rewards := 0 } }
      let s2 : AppState := { s1 with
        transactions := TransactionManager.addTransaction s1.transactions
          (Tx.simple TxKind.claimRewards rewards) }
      (Except.ok (), s2)

end StakingContract

/-- A core operation, for reasoning about sequences of calls.  `retire` carries
the content address returned by a successful upload (the in-source
`IPFSService.upload` mock always succeeds). -/
inductive Op where
  | mint (amount : ℚ)
  | buy (amount slippage : ℚ)
  | sell (amount slippage : ℚ)
  | stake (amount : ℚ)
  | unstake (amount : ℚ)
  | claimRewards
  | retire (amount : ℚ) (reason cid : String)
  deriving DecidableEq, Repr

/-- Dispatch one operation to the contract method it names. -/
def step (s : AppState) : Op → Except Err Unit × AppState
  | Op.mint a => tCO2TokenContract.mint s a
  | Op.buy a sl => MarketplaceContract.swapUSDTForTCO2 s a sl
  | Op.sell a sl => MarketplaceContract.swapTCO2ForUSDT s a sl
  | Op.stake a => StakingContract.stake s a
  | Op.unstake a => StakingContract.unstake s a
  | Op.claimRewards => StakingContract.claimRewards s
  | Op.retire a r cid => tCO2TokenContract.burn s a r (some cid)

/-- The state after one operation (mutations persist whether or not the call
threw). -/
def exec (s : AppState) (op : Op) : AppState := (step s op).2

/-- The stated preconditions of each operation: connected actor, positive
amount, sufficient balance (for claimRewards: positive pending rewards). -/
def pre (s : AppState) : Op → Prop
  | Op.mint a => s.connected = true ∧ 0 < a
  | Op.buy a _ => s.connected = true ∧ 0 < a
  | Op.sell a _ => s.connected = true ∧ 0 < a ∧ a ≤ s.wallet.tCO2Balance
  | Op.stake a => s.connected = true ∧ 0 < a ∧ a ≤ s.wallet.tCO2Balance
  | Op.unstake a => s.connected = true ∧ 0 < a ∧ a ≤ s.wallet.stakedBalance
  | Op.claimRewards => s.connected = true ∧ 0 < s.wallet.rewards
  | Op.retire a _ _ => s.connected = true ∧ 0 < a ∧ a ≤ s.wallet.tCO2Balance

instance (s : AppState) : (op : Op) → Decidable (pre s op)
  | Op.mint _ => inferInstanceAs (Decidable (_ ∧ _))
  | Op.buy _ _ => inferInstanceAs (Decidable (_ ∧ _))
  | Op.sell _ _ => inferInstanceAs (Decidable (_ ∧ _))
  | Op.stake _ => inferInstanceAs (Decidable (_ ∧ _))
  | Op.unstake _ => inferInstanceAs (Decidable (_ ∧ _))
  | Op.claimRewards => inferInstanceAs (Decidable (_ ∧ _))
  | Op.retire _ _ _ => inferInstanceAs (Decidable (_ ∧ _))

/-- Run a sequence of operations from a state. -/
def run (s : AppState) : List Op → AppState
  | [] => s
  | op :: ops => run (exec s op) ops

/-- Every operation in the sequence satisfies its precondition in the state it
actually executes in. -/
def validFrom (s : AppState) : List Op → Prop
  | [] => True
  | op :: ops => pre s op ∧ validFrom (exec s op) ops

def decValidFrom : (s : AppState) → (ops : List Op) → Decidable (validFrom s ops)
  | _, [] => Decidable.isTrue trivial
  | s, op :: ops =>
    have : Decidable (validFrom (exec s op) ops) := decValidFrom (exec s op) ops
    inferInstanceAs (Decidable (_ ∧ _))

instance (s : AppState) (ops : List Op) : Decidable (validFrom s ops) := decValidFrom s ops

/-- The non-negativity invariant of the spec's Balance data model. -/
def nonneg (s : AppState) : Prop :=
  0 ≤ s.wallet.tCO2Balance ∧ 0 ≤ s.wallet.stakedBalance ∧ 0 ≤ s.wallet.rewards

instance (s : AppState) : Decidable (nonneg s) := inferInstanceAs (Decidable (_ ∧ _))

/-- Round a rational to 2 decimal places (round half up). -/
def roundTo2 (q : ℚ) : ℚ := (⌊q * 100 + 1 / 2⌋ : ℚ) / 100

instance : DecidableEq (Except Err Unit) := fun a b =>
  match a, b with
  | Except.ok (), Except.ok () => Decidable.isTrue rfl
  | Except.ok (), Except.error _ => Decidable.isFalse (fun h => Except.noConfusion h)
  | Except.error _, Except.ok () => Decidable.isFalse (fun h => Except.noConfusion h)
  | Except.error e1, Except.error e2 =>
    if h : e1 = e2 then Decidable.isTrue (by rw [h])
    else Decidable.isFalse (fun hh => h (by injection hh))

/-- A sample connected state used by concrete witnesses. -/
def sampleState : AppState :=
  ⟨true, ⟨100, 50, 10⟩, ⟨0, 0, 0⟩, [], []⟩

/-- A connected state with all balances zero, used by concrete witnesses. -/
def zeroState : AppState :=
  ⟨true, ⟨0, 0, 0⟩, ⟨0, 0, 0⟩, [], []⟩

/-- A disconnected state, used by concrete witnesses. -/
def disconnectedState : AppState :=
  ⟨false, ⟨100, 50, 10⟩, ⟨0, 0, 0⟩, [], []⟩

theorem calculateSwapOutput_eq (x rin rout fee : ℚ) :
    MarketDataService.calculateSwapOutput x rin rout fee
      = x * (1 - fee) * rout / (rin + x * (1 - fee)) := rfl

theorem defaultFee_lt_one : (0:ℚ) < 1 - MarketDataService.defaultFee := by
  norm_num [MarketDataService.defaultFee]

theorem swapOutput_pos (x rin rout : ℚ) (hx : 0 < x) (hrin : 0 < rin) (hrout : 0 < rout) :
    0 < MarketDataService.calculateSwapOutput x rin rout MarketDataService.defaultFee := by
  rw [calculateSwapOutput_eq]
  have he : 0 < x * (1 - MarketDataService.defaultFee) := mul_pos hx defaultFee_lt_one
  exact div_pos (mul_pos he hrout) (by linarith)

theorem swapOutput_lt (x rin rout : ℚ) (hx : 0 < x) (hrin : 0 < rin) (hrout : 0 < rout) :
    MarketDataService.calculateSwapOutput x rin rout MarketDataService.defaultFee < rout := by
  rw [calculateSwapOutput_eq]
  have he : 0 < x * (1 - MarketDataService.defaultFee) := mul_pos hx defaultFee_lt_one
  rw [div_lt_iff₀ (by linarith)]
  nlinarith

/-- C1: for positive `inputAmount` and reserves and the default fee `0.003`,
`calculateSwapOutput` equals `effectiveInput * outputReserve / (inputReserve +
effectiveInput)` with `effectiveInput = inputAmount * (1 - fee)`, the result is
strictly between `0` and `outputReserve`, and the concrete quote
`calculateSwapOutput 1000 15500000 1000000` rounds to `64.32` at two decimal
places. -/
theorem quoteSwapOutput_formula_bounds :
    (∀ x rin rout : ℚ, 0 < x → 0 < rin → 0 < rout →
      MarketDataService.calculateSwapOutput x rin rout MarketDataService.defaultFee
          = x * (1 - MarketDataService.defaultFee) * rout
            / (rin + x * (1 - MarketDataService.defaultFee))
        ∧ 0 < MarketDataService.calculateSwapOutput x rin rout MarketDataService.defaultFee
        ∧ MarketDataService.calculateSwapOutput x rin rout MarketDataService.defaultFee < rout)
    ∧ roundTo2 (MarketDataService.calculateSwapOutput 1000 15500000 1000000
        MarketDataService.defaultFee) = 6432 / 100 := by
  refine ⟨fun x rin rout hx hrin hrout =>
    ⟨calculateSwapOutput_eq x rin rout _, swapOutput_pos x rin rout hx hrin hrout,
      swapOutput_lt x rin rout hx hrin hrout⟩, ?_⟩
  norm_num [roundTo2, MarketDataService.calculateSwapOutput, MarketDataService.defaultFee]

theorem quoteSwapOutput_formula_bounds_witness :
    0 < MarketDataService.calculateSwapOutput 1000 15500000 1000000 MarketDataService.defaultFee
    ∧ MarketDataService.calculateSwapOutput 1000 15500000 1000000 MarketDataService.defaultFee
        < 1000000 := by
  have h := quoteSwapOutput_formula_bounds.1 1000 15500000 1000000
    (by norm_num) (by norm_num) (by norm_num)
  exact ⟨h.2.1, h.2.2⟩

/-- C3 counterexample: `calculateSwapOutput` performs no validation, so at
`inputAmount = 0` (which the claim says must fail with `InvalidAmount`) it
still returns the numeric output `0`; the claim's clause that a numeric output
is returned only when all three arguments are positive is false. -/
theorem quoteSwapOutput_no_validation_cex :
    MarketDataService.calculateSwapOutput 0 1 1 MarketDataService.defaultFee = 0 := by
  norm_num [MarketDataService.calculateSwapOutput]

/-- C3 amended: `calculateSwapOutput` is a total function with no input
validation: for every input (positive or not) it returns the constant-product
formula value, and in particular a negative `inputAmount` yields a negative
numeric output rather than an `InvalidAmount` error. -/
theorem quoteSwapOutput_total_no_validation :
    (∀ x rin rout fee : ℚ,
      MarketDataService.calculateSwapOutput x rin rout fee
        = x * (1 - fee) * rout / (rin + x * (1 - fee)))
    ∧ MarketDataService.calculateSwapOutput (-1) 15500000 1000000 MarketDataService.defaultFee
        < 0 := by
  refine ⟨calculateSwapOutput_eq, ?_⟩
  norm_num [MarketDataService.calculateSwapOutput, MarketDataService.defaultFee]

/-- C5: for fixed positive reserves and the default fee `0.003`,
`calculateSwapOutput` is strictly monotonically increasing in `inputAmount` on
positive inputs. -/
theorem quoteSwapOutput_strictMono (rin rout x1 x2 : ℚ) (hrin : 0 < rin) (hrout : 0 < rout)
    (hx1 : 0 < x1) (hx : x1 < x2) :
    MarketDataService.calculateSwapOutput x1 rin rout MarketDataService.defaultFee
      < MarketDataService.calculateSwapOutput x2 rin rout MarketDataService.defaultFee := by
  rw [calculateSwapOutput_eq, calculateSwapOutput_eq]
  have he1 : 0 < x1 * (1 - MarketDataService.defaultFee) := mul_pos hx1 defaultFee_lt_one
  have he2 : x1 * (1 - MarketDataService.defaultFee) < x2 * (1 - MarketDataService.defaultFee) :=
    mul_lt_mul_of_pos_right hx defaultFee_lt_one
  rw [div_lt_div_iff₀ (by linarith) (by linarith)]
  nlinarith [mul_pos (mul_pos (sub_pos.mpr he2) hrout) hrin]

theorem quoteSwapOutput_strictMono_witness :
    MarketDataService.calculateSwapOutput 1 1 1 MarketDataService.defaultFee
      < MarketDataService.calculateSwapOutput 2 1 1 MarketDataService.defaultFee :=
  quoteSwapOutput_strictMono 1 1 1 2 (by norm_num) (by norm_num) (by norm_num) (by norm_num)

/-- C2 counterexample: in `sampleState` (connected, liquid balance `100`),
`burn 40` with a failing upload throws `StorageUnavailable` but leaves the
liquid balance at `60`, not `100`: the debit happens before the upload and is
not rolled back, so the claim that the balance is left exactly as it was is
false. -/
theorem retire_upload_failure_mutates_cex :
    (tCO2TokenContract.burn sampleState 40 "" none).1 = Except.error Err.StorageUnavailable
    ∧ (tCO2TokenContract.burn sampleState 40 "" none).2.wallet.tCO2Balance = 60
    ∧ sampleState.wallet.tCO2Balance = 100 := by
  refine ⟨?_, ?_, ?_⟩ <;> norm_num [tCO2TokenContract.burn, sampleState]

/-- C2 amended: if the content-store upload fails during retire, the call
reports `StorageUnavailable` and no transaction record is appended and no
certificate is stored, but the liquid balance has already been debited by the
retired amount (`totalRetired` likewise already bumped); staked balance and
rewards are untouched. -/
theorem retire_upload_failure_state (s : AppState) (a : ℚ) (r : String)
    (hc : s.connected = true) (hb : a ≤ s.wallet.tCO2Balance) :
    (tCO2TokenContract.burn s a r none).1 = Except.error Err.StorageUnavailable
    ∧ (tCO2TokenContract.burn s a r none).2.transactions = s.transactions
    ∧ (tCO2TokenContract.burn s a r none).2.retirements = s.retirements
    ∧ (tCO2TokenContract.burn s a r none).2.wallet.tCO2Balance = s.wallet.tCO2Balance - a
    ∧ (tCO2TokenContract.burn s a r none).2.stats.totalRetired = s.stats.totalRetired + a
    ∧ (tCO2TokenContract.burn s a r none).2.wallet.stakedBalance = s.wallet.stakedBalance
    ∧ (tCO2TokenContract.burn s a r none).2.wallet.rewards = s.wallet.rewards := by
  have hlt : ¬ s.wallet.tCO2Balance < a := not_lt.mpr hb
  simp [tCO2TokenContract.burn, hc, hlt]

theorem retire_upload_failure_state_witness :
    (tCO2TokenContract.burn sampleState 40 "reason" none).1
        = Except.error Err.StorageUnavailable
    ∧ (tCO2TokenContract.burn sampleState 40 "reason" none).2.wallet.tCO2Balance
        = sampleState.wallet.tCO2Balance - 40 := by
  have h := retire_upload_failure_state sampleState 40 "reason" rfl
    (by norm_num [sampleState])
  exact ⟨h.1, h.2.2.2.1⟩

theorem exec_nonneg (s : AppState) (op : Op) (hnn : nonneg s) (hpre : pre s op) :
    nonneg (exec s op) := by
  obtain ⟨h1, h2, h3⟩ := hnn
  cases op with
  | mint a =>
    obtain ⟨hc, ha⟩ := hpre
    simp [exec, step, tCO2TokenContract.mint, hc, nonneg, TransactionManager.addTransaction]
    refine ⟨by linarith, h2, h3⟩
  | buy a sl =>
    obtain ⟨hc, ha⟩ := hpre
    have hout := swapOutput_pos a MarketDataService.poolReserves_USDT
      MarketDataService.poolReserves_tCO2 ha
      (by norm_num [MarketDataService.poolReserves_USDT])
      (by norm_num [MarketDataService.poolReserves_tCO2])
    simp [exec, step, MarketplaceContract.swapUSDTForTCO2, hc, nonneg,
      TransactionManager.addTransaction]
    refine ⟨by linarith, h2, h3⟩
  | sell a sl =>
    obtain ⟨hc, ha, hb⟩ := hpre
    have hlt : ¬ s.wallet.tCO2Balance < a := not_lt.mpr hb
    simp [exec, step, MarketplaceContract.swapTCO2ForUSDT, hc, hlt, nonneg,
      TransactionManager.addTransaction]
    refine ⟨by linarith, h2, h3⟩
  | stake a =>
    obtain ⟨hc, ha, hb⟩ := hpre
    have hlt : ¬ s.wallet.tCO2Balance < a := not_lt.mpr hb
    simp [exec, step, StakingContract.stake, hc, hlt, nonneg,
      TransactionManager.addTransaction]
    refine ⟨by linarith, by linarith, h3⟩
  | unstake a =>
    obtain ⟨hc, ha, hb⟩ := hpre
    have hlt : ¬ s.wallet.stakedBalance < a := not_lt.mpr hb
    simp [exec, step, StakingContract.unstake, hc, hlt, nonneg,
      TransactionManager.addTransaction]
    refine ⟨by linarith, by linarith, h3⟩
  | claimRewards =>
    obtain ⟨hc, hr⟩ := hpre
    have hgt : ¬ s.wallet.rewards ≤ 0 := not_le.mpr hr
    simp [exec, step, StakingContract.claimRewards, hc, hgt, nonneg,
      TransactionManager.addTransaction]
    refine ⟨by linarith, h2⟩
  | retire a r cid =>
    obtain ⟨hc, ha, hb⟩ := hpre
    have hlt : ¬ s.wallet.tCO2Balance < a := not_lt.mpr hb
    simp [exec, step, tCO2TokenContract.burn, hc, hlt, nonneg,
      TransactionManager.addTransaction]
    refine ⟨by linarith, h2, h3⟩

/-- C4: starting from any state satisfying the Balance non-negativity
invariant, any sequence of core operations whose calls all satisfy their
stated preconditions (connected actor, positive amounts, sufficient balances,
positive pending rewards for claiming) keeps `tCO2Balance`, `stakedBalance`
and `rewards` non-negative after every operation (every prefix of the run). -/
theorem balances_nonneg_invariant (s : AppState) (ops : List Op)
    (hnn : nonneg s) (hv : validFrom s ops) (n : ℕ) :
    nonneg (run s (ops.take n)) := by
  induction ops generalizing s n with
  | nil => simpa [run] using hnn
  | cons op ops ih =>
    obtain ⟨hpre, hv2⟩ := hv
    cases n with
    | zero => simpa [run] using hnn
    | succ m =>
      rw [List.take_succ_cons]
      exact ih (exec s op) (exec_nonneg s op ⟨hnn.1, hnn.2⟩ hpre) hv2 m

theorem balances_nonneg_invariant_witness :
    nonneg (run sampleState ([Op.stake 30, Op.unstake 30, Op.claimRewards, Op.sell 20 0,
      Op.retire 10 "r" "cid", Op.mint 5, Op.buy 100 0].take 7)) :=
  balances_nonneg_invariant sampleState
    [Op.stake 30, Op.unstake 30, Op.claimRewards, Op.sell 20 0,
      Op.retire 10 "r" "cid", Op.mint 5, Op.buy 100 0]
    (by norm_num [nonneg, sampleState])
    (by norm_num [validFrom, pre, exec, step, sampleState, StakingContract.stake,
      StakingContract.unstake, StakingContract.claimRewards,
      MarketplaceContract.swapTCO2ForUSDT, MarketplaceContract.swapUSDTForTCO2,
      tCO2TokenContract.burn, tCO2TokenContract.mint, TransactionManager.addTransaction,
      MarketDataService.calculateSwapOutput, MarketDataService.defaultFee,
      MarketDataService.poolReserves_tCO2, MarketDataService.poolReserves_USDT])
    7

/-- C6: for a connected actor with `0 < X ≤ tCO2Balance` (and the data-model
invariant `0 ≤ stakedBalance`), `stake X` immediately followed by `unstake X`
succeeds, restores `tCO2Balance` and `stakedBalance` to exactly their
pre-stake values, and appends exactly two new transaction records, one of kind
`stake` and one of kind `unstake` (newest first). -/
theorem stake_unstake_roundtrip (s : AppState) (X : ℚ)
    (hc : s.connected = true) (hX : 0 < X) (hle : X ≤ s.wallet.tCO2Balance)
    (hst : 0 ≤ s.wallet.stakedBalance) :
    (StakingContract.stake s X).1 = Except.ok ()
    ∧ (StakingContract.unstake (StakingContract.stake s X).2 X).1 = Except.ok ()
    ∧ (StakingContract.unstake (StakingContract.stake s X).2 X).2.wallet.tCO2Balance
        = s.wallet.tCO2Balance
    ∧ (StakingContract.unstake (StakingContract.stake s X).2 X).2.wallet.stakedBalance
        = s.wallet.stakedBalance
    ∧ (StakingContract.unstake (StakingContract.stake s X).2 X).2.transactions
        = Tx.simple TxKind.unstake X :: Tx.simple TxKind.stake X :: s.transactions := by
  have h1 : ¬ s.wallet.tCO2Balance < X := not_lt.mpr hle
  have h2 : ¬ s.wallet.stakedBalance + X < X := by
    rw [not_lt]
    linarith
  simp [StakingContract.stake, StakingContract.unstake, TransactionManager.addTransaction,
    hc, h1, h2]

theorem stake_unstake_roundtrip_witness :
    (StakingContract.unstake (StakingContract.stake sampleState 30).2 30).2.wallet.tCO2Balance
        = sampleState.wallet.tCO2Balance
    ∧ (StakingContract.unstake (StakingContract.stake sampleState 30).2 30).2.transactions
        = Tx.simple TxKind.unstake 30 :: Tx.simple TxKind.stake 30
            :: sampleState.transactions := by
  have h := stake_unstake_roundtrip sampleState 30 rfl (by norm_num)
    (by norm_num [sampleState]) (by norm_num [sampleState])
  exact ⟨h.2.2.1, h.2.2.2.2⟩

theorem step_error_eq (s : AppState) (op : Op) (e : Err)
    (h : (step s op).1 = Except.error e) : (step s op).2 = s := by
  cases op with
  | mint a =>
    by_cases hc : s.connected = true
    · simp [step, tCO2TokenContract.mint, hc] at h
    · simp [step, tCO2TokenContract.mint, hc]
  | buy a sl =>
    by_cases hc : s.connected = true
    · simp [step, MarketplaceContract.swapUSDTForTCO2, hc] at h
    · simp [step, MarketplaceContract.swapUSDTForTCO2, hc]
  | sell a sl =>
    by_cases hc : s.connected = true
    · by_cases hb : s.wallet.tCO2Balance < a
      · simp [step, MarketplaceContract.swapTCO2ForUSDT, hc, hb]
      · simp [step, MarketplaceContract.swapTCO2ForUSDT, hc, hb] at h
    · simp [step, MarketplaceContract.swapTCO2ForUSDT, hc]
  | stake a =>
    by_cases hc : s.connected = true
    · by_cases hb : s.wallet.tCO2Balance < a
      · simp [step, StakingContract.stake, hc, hb]
      · simp [step, StakingContract.stake, hc, hb] at h
    · simp [step, StakingContract.stake, hc]
  | unstake a =>
    by_cases hc : s.connected = true
    · by_cases hb : s.wallet.stakedBalance < a
      · simp [step, StakingContract.unstake, hc, hb]
      · simp [step, StakingContract.unstake, hc, hb] at h
    · simp [step, StakingContract.unstake, hc]
  | claimRewards =>
    by_cases hc : s.connected = true
    · by_cases hr : s.wallet.rewards ≤ 0
      · simp [step, StakingContract.claimRewards, hc, hr]
      · simp [step, StakingContract.claimRewards, hc, hr] at h
    · simp [step, StakingContract.claimRewards, hc]
  | retire a r cid =>
    by_cases hc : s.connected = true
    · by_cases hb : s.wallet.tCO2Balance < a
      · simp [step, tCO2TokenContract.burn, hc, hb]
      · simp [step, tCO2TokenContract.burn, hc, hb] at h
    · simp [step, tCO2TokenContract.burn, hc]

/-- C7: whenever a core operation throws (for the operations of `Op`, whose
retire carries a successful upload, every throw is a failed precondition
check), the state — balances, transaction history, certificates — is exactly
the input state; in particular `sell` with `amount > tCO2Balance` fails with
`InsufficientBalance` leaving the state (hence the record count) unchanged,
and `claimRewards` with zero pending rewards fails with `NothingToClaim`
leaving the state (hence `tCO2Balance`) unchanged. -/
theorem precondition_failure_no_mutation :
    (∀ (s : AppState) (op : Op) (e : Err),
        (step s op).1 = Except.error e → (step s op).2 = s)
    ∧ (∀ (s : AppState) (a sl : ℚ), s.connected = true → s.wallet.tCO2Balance < a →
        MarketplaceContract.swapTCO2ForUSDT s a sl = (Except.error Err.InsufficientBalance, s))
    ∧ (∀ s : AppState, s.connected = true → s.wallet.rewards = 0 →
        StakingContract.claimRewards s = (Except.error Err.NothingToClaim, s)) := by
  refine ⟨step_error_eq, ?_, ?_⟩
  · intro s a sl hc hb
    simp [MarketplaceContract.swapTCO2ForUSDT, hc, hb]
  · intro s hc hr
    simp [StakingContract.claimRewards, hc, hr]

theorem precondition_failure_no_mutation_witness :
    (step disconnectedState (Op.mint 5)).2 = disconnectedState
    ∧ MarketplaceContract.swapTCO2ForUSDT sampleState 200 0
        = (Except.error Err.InsufficientBalance, sampleState)
    ∧ StakingContract.claimRewards zeroState
        = (Except.error Err.NothingToClaim, zeroState) :=
  ⟨precondition_failure_no_mutation.1 disconnectedState (Op.mint 5) Err.NotConnected
      (by norm_num [step, tCO2TokenContract.mint, disconnectedState]),
    precondition_failure_no_mutation.2.1 sampleState 200 0 rfl (by norm_num [sampleState]),
    precondition_failure_no_mutation.2.2 zeroState rfl rfl⟩

/-- C8 counterexample: with a connected actor, `swapUSDTForTCO2` with
`usdtAmount = 0` (which is `≤ 0` and per the claim must fail with
`InvalidAmount` without appending a record) completes successfully and appends
a new `buy` transaction record. -/
theorem buy_no_amount_validation_cex :
    (MarketplaceContract.swapUSDTForTCO2 sampleState 0 (1/10)).1 = Except.ok ()
    ∧ (MarketplaceContract.swapUSDTForTCO2 sampleState 0 (1/10)).2.transactions.length
        = sampleState.transactions.length + 1 := by
  refine ⟨?_, ?_⟩ <;>
    norm_num [MarketplaceContract.swapUSDTForTCO2, sampleState,
      TransactionManager.addTransaction]

/-- C8 amended: `swapUSDTForTCO2` performs no amount validation at all: for a
connected actor it succeeds for every `usdtAmount` (zero or negative
included), credits the balance with the computed AMM output, and appends a
`buy` record. -/
theorem buy_accepts_any_amount (s : AppState) (q sl : ℚ) (hc : s.connected = true) :
    (MarketplaceContract.swapUSDTForTCO2 s q sl).1 = Except.ok ()
    ∧ (MarketplaceContract.swapUSDTForTCO2 s q sl).2.wallet.tCO2Balance
        = s.wallet.tCO2Balance + MarketDataService.calculateSwapOutput q
            MarketDataService.poolReserves_USDT MarketDataService.poolReserves_tCO2
            MarketDataService.defaultFee
    ∧ (MarketplaceContract.swapUSDTForTCO2 s q sl).2.transactions
        = Tx.swapRec TxKind.buy q (MarketDataService.calculateSwapOutput q
            MarketDataService.poolReserves_USDT MarketDataService.poolReserves_tCO2
            MarketDataService.defaultFee) :: s.transactions := by
  simp [MarketplaceContract.swapUSDTForTCO2, hc, TransactionManager.addTransaction]

theorem buy_accepts_any_amount_witness :
    (MarketplaceContract.swapUSDTForTCO2 sampleState (-5) 0).1 = Except.ok ()
    ∧ (MarketplaceContract.swapUSDTForTCO2 sampleState (-5) 0).2.wallet.tCO2Balance
        = sampleState.wallet.tCO2Balance + MarketDataService.calculateSwapOutput (-5)
            MarketDataService.poolReserves_USDT MarketDataService.poolReserves_tCO2
            MarketDataService.defaultFee :=
  have h := buy_accepts_any_amount sampleState (-5) 0 rfl
  ⟨h.1, h.2.1⟩

/-- C9: the slippage tolerance is computed but never enforced: for any two
slippage values the buy and sell calls return identical results, and with a
connected actor, a positive buy amount and a sufficient sell amount both calls
succeed and settle at exactly the `calculateSwapOutput` quote (the buy credits
exactly the quoted tCO2 output; the sell debits exactly the input and records
exactly the quoted USDT output). -/
theorem slippage_never_enforced (s : AppState) (q a sl sl2 : ℚ)
    (hc : s.connected = true) (hq : 0 < q) (ha : 0 < a)
    (hA : a ≤ s.wallet.tCO2Balance) :
    MarketplaceContract.swapUSDTForTCO2 s q sl = MarketplaceContract.swapUSDTForTCO2 s q sl2
    ∧ MarketplaceContract.swapTCO2ForUSDT s a sl = MarketplaceContract.swapTCO2ForUSDT s a sl2
    ∧ (MarketplaceContract.swapUSDTForTCO2 s q sl).1 = Except.ok ()
    ∧ (MarketplaceContract.swapUSDTForTCO2 s q sl).2.wallet.tCO2Balance
        = s.wallet.tCO2Balance + MarketDataService.calculateSwapOutput q
            MarketDataService.poolReserves_USDT MarketDataService.poolReserves_tCO2
            MarketDataService.defaultFee
    ∧ (MarketplaceContract.swapTCO2ForUSDT s a sl).1 = Except.ok ()
    ∧ (MarketplaceContract.swapTCO2ForUSDT s a sl).2.wallet.tCO2Balance
        = s.wallet.tCO2Balance - a
    ∧ (MarketplaceContract.swapTCO2ForUSDT s a sl).2.transactions
        = Tx.swapRec TxKind.sell a (MarketDataService.calculateSwapOutput a
            MarketDataService.poolReserves_tCO2 MarketDataService.poolReserves_USDT
            MarketDataService.defaultFee) :: s.transactions := by
  have hlt : ¬ s.wallet.tCO2Balance < a := not_lt.mpr hA
  simp [MarketplaceContract.swapUSDTForTCO2, MarketplaceContract.swapTCO2ForUSDT, hc, hlt,
    TransactionManager.addTransaction]

theorem slippage_never_enforced_witness :
    MarketplaceContract.swapUSDTForTCO2 sampleState 1000 0
        = MarketplaceContract.swapUSDTForTCO2 sampleState 1000 50
    ∧ MarketplaceContract.swapTCO2ForUSDT sampleState 20 0
        = MarketplaceContract.swapTCO2ForUSDT sampleState 20 50
    ∧ (MarketplaceContract.swapTCO2ForUSDT sampleState 20 0).2.wallet.tCO2Balance
        = sampleState.wallet.tCO2Balance - 20 := by
  have h := slippage_never_enforced sampleState 1000 20 0 50 rfl (by norm_num)
    (by norm_num) (by norm_num [sampleState])
  exact ⟨h.1, h.2.1, h.2.2.2.2.2.1⟩

/-- C10: `stake` and `unstake` never reject a non-positive amount: for a
connected actor with non-negative balances and any `a < 0`, both calls
succeed; `stake a` increases `tCO2Balance` (by `-a`) and decreases
`stakedBalance`, `unstake a` does the reverse, and from a zero balance this
drives the corresponding balance field strictly below zero. -/
theorem stake_unstake_accept_negative (s : AppState) (a : ℚ)
    (hc : s.connected = true) (hl : 0 ≤ s.wallet.tCO2Balance)
    (hs : 0 ≤ s.wallet.stakedBalance) (ha : a < 0) :
    (StakingContract.stake s a).1 = Except.ok ()
    ∧ (StakingContract.stake s a).2.wallet.tCO2Balance = s.wallet.tCO2Balance - a
    ∧ s.wallet.tCO2Balance < (StakingContract.stake s a).2.wallet.tCO2Balance
    ∧ (StakingContract.stake s a).2.wallet.stakedBalance = s.wallet.stakedBalance + a
    ∧ (StakingContract.stake s a).2.wallet.stakedBalance < s.wallet.stakedBalance
    ∧ (s.wallet.stakedBalance = 0 → (StakingContract.stake s a).2.wallet.stakedBalance < 0)
    ∧ (StakingContract.unstake s a).1 = Except.ok ()
    ∧ (StakingContract.unstake s a).2.wallet.stakedBalance = s.wallet.stakedBalance - a
    ∧ (StakingContract.unstake s a).2.wallet.tCO2Balance = s.wallet.tCO2Balance + a
    ∧ (s.wallet.tCO2Balance = 0 → (StakingContract.unstake s a).2.wallet.tCO2Balance < 0) := by
  have h1 : ¬ s.wallet.tCO2Balance < a := by
    rw [not_lt]
    linarith
  have h2 : ¬ s.wallet.stakedBalance < a := by
    rw [not_lt]
    linarith
  refine ⟨?_, ?_, ?_, ?_, ?_, ?_, ?_, ?_, ?_, ?_⟩
  · simp [StakingContract.stake, hc, h1]
  · simp [StakingContract.stake, hc, h1]
  · simp [StakingContract.stake, hc, h1]
    linarith
  · simp [StakingContract.stake, hc, h1]
  · simp [StakingContract.stake, hc, h1]
    linarith
  · intro hz
    simp [StakingContract.stake, hc, h1, hz]
    linarith
  · simp [StakingContract.unstake, hc, h2]
  · simp [StakingContract.unstake, hc, h2]
  · simp [StakingContract.unstake, hc, h2]
  · intro hz
    simp [StakingContract.unstake, hc, h2, hz]
    linarith

theorem stake_unstake_accept_negative_witness :
    (StakingContract.stake zeroState (-1)).1 = Except.ok ()
    ∧ (StakingContract.stake zeroState (-1)).2.wallet.stakedBalance < 0 := by
  have h := stake_unstake_accept_negative zeroState (-1) rfl (by norm_num [zeroState])
    (by norm_num [zeroState]) (by norm_num)
  exact ⟨h.1, h.2.2.2.2.2.1 (by norm_num [zeroState])⟩

end CarbonChain
